import Mathlib

/-!
Verification of the SvelteKit route processor of the houdini repository
(src/src/common/path.ts).

The processor discovers the query targets of a route (page-query file,
inline queries of the component, entries of the exported houdini_load
list), inspects the exported names of the route script, and synthesizes
an exported asynchronous load procedure into the script of the route.

The embedding below translates the second generation of the processor
(the functions svelteKitProcessor, add_load, find_page_query,
find_inline_queries, load_hook_statements, find_page_info and
query_variable_fn of path.ts).  Generated JavaScript is modelled by a
small syntax tree mirroring the recast builders the source uses, and
the in-place splices of the source become pure list insertions.
-/

namespace Houdini

/-- JavaScript expressions, mirroring the recast AST builders used by
the source (identifier, literal, memberExpression, callExpression,
objectExpression, arrayExpression, newExpression, awaitExpression,
assignmentExpression, logicalExpression).  The prop and spread
constructors model objectProperty and spreadElement nodes; they occur
only inside the property list of objectE. -/
inductive JSExpr where
  | ident (name : String)
  | strLit (s : String)
  | numLit (n : Nat)
  | boolLit (b : Bool)
  | member (obj : JSExpr) (property : JSExpr)
  | call (callee : JSExpr) (args : List JSExpr)
  | objectE (props : List JSExpr)
  | arrayE (elems : List JSExpr)
  | newE (callee : JSExpr) (args : List JSExpr)
  | awaitE (e : JSExpr)
  | assign (lhs : JSExpr) (rhs : JSExpr)
  | logicalAnd (l : JSExpr) (r : JSExpr)
  | prop (key : JSExpr) (value : JSExpr)
  | spread (e : JSExpr)

/-- JavaScript statements, restricted to the statement forms the
processor reads or builds.  constDecl models a variableDeclaration with
a single declarator, exportFunction an exportNamedDeclaration of a
functionDeclaration, and other stands for arbitrary pre-existing
statements of the user script. -/
inductive JSStmt where
  | exprStmt (e : JSExpr)
  | constDecl (name : String) (init : JSExpr)
  | returnStmt (e : JSExpr)
  | importDecl (names : List String) (sourceModule : String)
  | exportFunction (name : String) (isAsync : Bool) (params : List String) (body : List JSStmt)
  | labeled (label : String) (s : JSStmt)
  | other (tag : String)

/-- A resolved query target of a route: the LoadTarget type of path.ts.
The vars field models the variables field of the source (that name is a
reserved token here). -/
structure LoadTarget where
  store_id : JSExpr
  name : String
  vars : Bool

/-- The QueryInfo type of path.ts; vars models the variables field. -/
structure QueryInfo where
  name : String
  vars : Bool
  deriving DecidableEq, Repr

/-- The PageScriptInfo type of path.ts: the inspected metadata of the
route script module. -/
structure PageScriptInfo where
  load : Option (List QueryInfo)
  exports : List String
  deriving DecidableEq, Repr

/-- query_variable_fn of path.ts. -/
def query_variable_fn (name : String) : String :=
  name ++ "Variables"

/-- List insertion used to model the splice calls of the source:
insertAt l i xs inserts the elements xs before position i of l. -/
def insertAt {α : Type} (l : List α) (i : Nat) (xs : List α) : List α :=
  l.take i ++ xs ++ l.drop i

/-! ### The statements built by add_load (second generation, path.ts lines 1611-1809) -/

/-- const houdini_context = new RequestContext(context) -/
def ctx_decl : JSStmt :=
  .constDecl "houdini_context" (.newE (.ident "RequestContext") [.ident "context"])

/-- const inputs = \x7b\x7d -/
def inputs_decl : JSStmt :=
  .constDecl "inputs" (.objectE [])

/-- const promises = [] -/
def promises_decl : JSStmt :=
  .constDecl "promises" (.arrayE [])

/-- const result = await Promise.all(promises) -/
def result_decl : JSStmt :=
  .constDecl "result"
    (.awaitE (.call (.member (.ident "Promise") (.ident "all")) [.ident "promises"]))

/-- return \x7b ...houdini_context.returnValue, inputs: inputs \x7d -/
def return_stmt : JSStmt :=
  .returnStmt (.objectE
    [ .spread (.member (.ident "houdini_context") (.ident "returnValue"))
    , .prop (.ident "inputs") (.ident "inputs") ])

/-- The computeInput call generated when the variable function of the
query is among the exports of the route script. -/
def compute_input_expr (q : LoadTarget) : JSExpr :=
  .call (.member (.ident "houdini_context") (.ident "computeInput"))
    [ .objectE
        [ .prop (.strLit "config") (.ident "houdiniConfig")
        , .prop (.strLit "variableFunction") (.ident (query_variable_fn q.name))
        , .prop (.strLit "artifact") (.member q.store_id (.strLit "artifact")) ] ]

/-- The statement assigning the input variables of one query:
inputs[name] = computeInput(...) when the exports of the route script
contain the derived variable function name, an empty object otherwise. -/
def input_assign_stmt (exports : List String) (q : LoadTarget) : JSStmt :=
  .exprStmt (.assign (.member (.ident "inputs") (.strLit q.name))
    (if exports.contains (query_variable_fn q.name)
      then compute_input_expr q
      else .objectE []))

/-- The statement pushing one fetch promise:
promises.push(store.fetch(\x7b variables, event, blocking \x7d)). -/
def fetch_push_stmt (after_load : Bool) (q : LoadTarget) : JSStmt :=
  .exprStmt (.call (.member (.ident "promises") (.ident "push"))
    [ .call (.member q.store_id (.ident "fetch"))
        [ .objectE
            [ .prop (.strLit "variables") (.member (.ident "inputs") (.strLit q.name))
            , .prop (.strLit "event") (.ident "context")
            , .prop (.strLit "blocking") (.boolLit after_load) ] ] ])

/-- The data map of the after hook: one property per query, pairing the
operation name with the element of the awaited result list at the
position of the query (load_hook_statements of path.ts). -/
def data_props : Nat → List LoadTarget → List JSExpr
  | _, [] => []
  | i, q :: qs =>
      .prop (.strLit q.name) (.member (.ident "result") (.numLit i)) :: data_props (i + 1) qs

/-- load_hook_statements of path.ts (second generation): the awaited
invokeLoadHook call for the before or after hook. -/
def load_hook_stmt (name : String) (queries : List LoadTarget) : JSStmt :=
  .exprStmt (.awaitE (.call
    (.member (.ident "houdini_context") (.ident "invokeLoadHook"))
    [ .objectE
        ([ .prop (.strLit "variant")
             (.strLit (if name == "afterLoad" then "after" else "before"))
         , .prop (.strLit "hookFn") (.ident name) ]
         ++ (if name == "afterLoad" then
               [ .prop (.strLit "input") (.ident "inputs")
               , .prop (.strLit "data") (.objectE (data_props 0 queries)) ]
             else [])) ]))

/-- The initial body of the generated load function before any splice:
context declaration, inputs declaration, promises declaration, return
statement. -/
def initial_body : List JSStmt :=
  [ctx_decl, inputs_decl, promises_decl, return_stmt]

/-- One iteration of the per-query loop of add_load: splice the two
statements of the query at the insertion cursor and advance the cursor
by two. -/
def add_query_stmts (exports : List String) (after_load : Bool) :
    List JSStmt × Nat → LoadTarget → List JSStmt × Nat
  | (body, i), q =>
      (insertAt body i [input_assign_stmt exports q, fetch_push_stmt after_load q], i + 2)

/-- The body of the generated load function, following the splice
sequence of add_load: the per-query statements starting at index 3, the
awaited Promise.all, the before hook at index 1, the after hook before
the final return. -/
def load_body (queries : List LoadTarget) (info : PageScriptInfo) : List JSStmt :=
  let before_load := info.exports.contains "beforeLoad"
  let after_load := info.exports.contains "afterLoad"
  let folded := queries.foldl (add_query_stmts info.exports after_load) (initial_body, 3)
  let b2 := insertAt folded.1 folded.2 [result_decl]
  let b3 := if before_load then insertAt b2 1 [load_hook_stmt "beforeLoad" queries] else b2
  if after_load then insertAt b3 (b3.length - 1) [load_hook_stmt "afterLoad" queries] else b3

/-- Modelled from the spec: find_insert_index of the AST helper module
(imported by path.ts from ../ast, not under src/).  Section 4.5 of the
spec: insertion begins immediately after the last leading import
statement. -/
def find_insert_index : List JSStmt → Nat
  | [] => 0
  | .importDecl _ _ :: rest => find_insert_index rest + 1
  | _ :: _ => 0

/-- Whether a statement is an import of exactly the given names from
the given module. -/
def is_import_of (names : List String) (sourceModule : String) : JSStmt → Bool
  | .importDecl ns m => ns == names && m == sourceModule
  | _ => false

/-- Modelled from the spec: ensure_imports of the import manager
(imported by path.ts from ../imports, not under src/).  Section 4.6 of
the spec: idempotent, a second request for the same symbol and module
pair inserts nothing. -/
def ensure_imports (script : List JSStmt) (names : List String) (sourceModule : String) :
    List JSStmt :=
  if script.any (is_import_of names sourceModule) then script
  else insertAt script (find_insert_index script) [.importDecl names sourceModule]

/-- The test of the validation loop of add_load: the query declares
variables and the exports of the route script do not contain the
derived variable function name. -/
def missing_variable_fn (exports : List String) (q : LoadTarget) : Bool :=
  !exports.contains (query_variable_fn q.name) && q.vars

/-- The diagnostic logged by add_load for a missing variable function. -/
def missing_fn_message (filepath : String) (fn : String) : String :=
  "error in " ++ filepath ++ ":\ncould not find required variable function: "
    ++ fn ++ ". maybe its not exported?\n"

/-- The result of add_load: the script after the transformation and the
diagnostics logged while running it. -/
structure AddLoadResult where
  script : List JSStmt
  diagnostics : List String

/-- add_load of path.ts (second generation, lines 1611-1809): a no-op
when the exports already contain load; otherwise validate the variable
functions first and return the untouched script with one diagnostic per
offending query when any is missing; otherwise ensure the
RequestContext import and append the exported asynchronous load
function. -/
def add_load (filepath : String) (script : List JSStmt) (queries : List LoadTarget)
    (info : PageScriptInfo) : AddLoadResult :=
  if info.exports.contains "load" then
    ⟨script, []⟩
  else
    let missing := queries.filter (missing_variable_fn info.exports)
    if missing.isEmpty then
      ⟨ensure_imports script ["RequestContext"] "$houdini/runtime/lib/network"
          ++ [.exportFunction "load" true ["context"] (load_body queries info)]
      , []⟩
    else
      ⟨script, missing.map (fun q => missing_fn_message filepath (query_variable_fn q.name))⟩

/-! ### Helper shapes for the closed form of the generated body -/

/-- The two statements generated for each query, in query order. -/
def query_pair_stmts (exports : List String) (after_load : Bool) : List LoadTarget → List JSStmt
  | [] => []
  | q :: qs =>
      input_assign_stmt exports q :: fetch_push_stmt after_load q
        :: query_pair_stmts exports after_load qs

/-- An optional hook statement: present exactly when the hook is
declared. -/
def hook_opt (present : Bool) (s : JSStmt) : List JSStmt :=
  if present then [s] else []

/-! ### Scanners over generated bodies -/

/-- Look up the value of a string-keyed property in a property list. -/
def prop_value (key : String) : List JSExpr → Option JSExpr
  | [] => none
  | .prop (.strLit k) v :: rest => if k == key then some v else prop_value key rest
  | _ :: rest => prop_value key rest

/-- If the statement is a generated fetch push
(promises.push(store.fetch(\x7b...\x7d))), return the value of its
blocking property. -/
def stmt_blocking_flag : JSStmt → Option JSExpr
  | .exprStmt (.call (.member (.ident "promises") (.ident "push"))
      [.call (.member _ (.ident "fetch")) [.objectE props]]) => prop_value "blocking" props
  | _ => none

/-- The blocking flags of every generated fetch push of a body, in
statement order. -/
def fetch_blocking_flags (body : List JSStmt) : List JSExpr :=
  body.filterMap stmt_blocking_flag

/-- Whether a statement is an awaited invokeLoadHook call with variant
after. -/
def is_after_hook_stmt : JSStmt → Bool
  | .exprStmt (.awaitE (.call (.member (.ident "houdini_context") (.ident "invokeLoadHook"))
      [.objectE (.prop (.strLit "variant") (.strLit "after") :: _)])) => true
  | _ => false

/-! ### The query-language model shared by the discovery functions -/

/-- One variable definition of an operation: whether its type is
non-null and whether it carries a default value. -/
structure VarDef where
  nonNull : Bool
  hasDefault : Bool
  deriving DecidableEq, Repr

/-- Modelled from the spec: operation_requires_variables (imported by
path.ts from ../../common, not under src/).  Section 4.2 of the spec:
an operation requires variables iff it has at least one variable
definition whose type is non-null and has no default value. -/
def operation_requires_variables (vars : List VarDef) : Bool :=
  vars.any (fun v => v.nonNull && !v.hasDefault)

/-- An operation definition of the parsed query language: its operation
kind (query, mutation or subscription), its name and its variable
definitions. -/
structure OperationDefinition where
  operation : String
  name : String
  variableDefinitions : List VarDef
  deriving DecidableEq, Repr

/-- A definition of a parsed document: an operation definition or a
fragment definition (the kind discriminator of the graphql AST). -/
inductive GraphqlDefinition where
  | operationDefinition (d : OperationDefinition)
  | fragmentDefinition (name : String)
  deriving DecidableEq, Repr

/-- A parsed query-language document. -/
structure GraphqlDocument where
  definitions : List GraphqlDefinition
  deriving DecidableEq, Repr

/-- Modelled from the spec: the store naming convention of store_import
(imported by path.ts from ../imports, not under src/).  The local store
identifier is derived from the operation name; the test snapshots of
path.ts show the GQL_ prefixed form. -/
def store_name (name : String) : String :=
  "GQL_" ++ name

/-- The definitions.find call of find_page_query: the first definition
that is an operation definition of kind query. -/
def find_query_definition : List GraphqlDefinition → Option OperationDefinition
  | [] => none
  | .operationDefinition d :: rest =>
      if d.operation == "query" then some d else find_query_definition rest
  | .fragmentDefinition _ :: rest => find_query_definition rest

/-- find_page_query of path.ts (second generation, lines 1885-1920).
The file read and the query-language parser are collaborators: contents
is the read file (none when the file does not exist) and parse is the
graphql parser, whose thrown syntax error is an Except.error.  The
source applies graphql.parse outside any try block, so a parse error
propagates; a file whose parse succeeds but contains no query operation
logs a diagnostic and yields no target.  The store_import side effect
on the script is covered by the import-manager model and omitted here. -/
def find_page_query (contents : Option String)
    (parse : String → Except String GraphqlDocument) :
    Except String (Option LoadTarget × List String) :=
  match contents with
  | none => .ok (none, [])
  | some text =>
    match parse text with
    | .error e => .error e
    | .ok parsed =>
      match find_query_definition parsed.definitions with
      | none => .ok (none, ["page.gql must contain a query"])
      | some d =>
          .ok (some ⟨.ident (store_name d.name), d.name,
                     operation_requires_variables d.variableDefinitions⟩, [])

/-! ### Inline query discovery -/

/-- One embedded query-language literal found by the tag walker: its
parsed document and the syntactic type of its parent node.  The walker
itself (walk_graphql_tags, imported by path.ts from ../walk, not under
src/) supplies only literals whose text parsed successfully. -/
structure GraphqlTagSite where
  parsedDocument : GraphqlDocument
  parentType : String

/-- The where filter of find_inline_queries: the document has at least
one operation definition of kind query. -/
def tag_where (doc : GraphqlDocument) : Bool :=
  doc.definitions.any fun d =>
    match d with
    | .operationDefinition o => o.operation == "query"
    | .fragmentDefinition _ => false

/-- Whether the first definition of the document of a tag site is an
operation definition of kind query. -/
def is_first_query (t : GraphqlTagSite) : Bool :=
  match t.parsedDocument.definitions with
  | .operationDefinition o :: _ => o.operation == "query"
  | _ => false

/-- The load target a tag site would contribute, built from the first
definition of its document. -/
def inline_target (t : GraphqlTagSite) : Option LoadTarget :=
  match t.parsedDocument.definitions with
  | .operationDefinition o :: _ =>
      some ⟨.ident (store_name o.name), o.name,
            operation_requires_variables o.variableDefinitions⟩
  | _ => none

/-- find_inline_queries of path.ts (second generation, lines
1811-1883): the walker applies the where filter to each literal, then
the tag callback records the literal when its first definition is an
operation definition of kind query and its parent is a call expression;
the collected names are finally mapped to store references. -/
def find_inline_queries : List GraphqlTagSite → List LoadTarget
  | [] => []
  | t :: rest =>
    if tag_where t.parsedDocument then
      (match t.parsedDocument.definitions with
       | .operationDefinition o :: _ =>
         if o.operation == "query" && t.parentType == "CallExpression" then
           ⟨.ident (store_name o.name), o.name,
            operation_requires_variables o.variableDefinitions⟩ :: find_inline_queries rest
         else find_inline_queries rest
       | _ => find_inline_queries rest)
    else find_inline_queries rest

/-! ### Route metadata resolution (find_page_info, second generation) -/

/-- One entry of the exported houdini_load list as seen after importing
the route module: its name, its optional kind discriminator (none
models a value without a kind field) and its variables flag. -/
structure StoreEntry where
  name : String
  kind : Option String
  vars : Bool
  deriving DecidableEq, Repr

/-- Modelled from the spec: the compiled-query kind discriminator
CompiledQueryKind (imported by path.ts from ../../runtime, not under
src/); a known tag marking recognized query-store references. -/
def CompiledQueryKind : String :=
  "HoudiniQuery"

/-- The validation loop of find_page_info over the houdini_load
entries: a repeated name, a missing kind field or a kind other than
CompiledQueryKind fails the whole resolution (none); otherwise the
entries become the load list in order. -/
def build_load : List String → List StoreEntry → Option (List QueryInfo)
  | _, [] => some []
  | seen, s :: rest =>
    if seen.contains s.name then none
    else
      match s.kind with
      | none => none
      | some k =>
        if k != CompiledQueryKind then none
        else (build_load (seen ++ [s.name]) rest).map (fun l => ⟨s.name, s.vars⟩ :: l)

/-- The shape of the houdini_load export of the imported route module:
absent, present but not an array, or an array of entries. -/
inductive HoudiniLoadValue where
  | absent
  | notList
  | list (entries : List StoreEntry)

/-- The imported route module: its exported names and its houdini_load
export. -/
structure RouteModule where
  exports : List String
  houdini_load : HoudiniLoadValue

/-- The nil result of find_page_info: empty load list, empty exports. -/
def nilInfo : PageScriptInfo :=
  ⟨some [], []⟩

/-- find_page_info of path.ts (second generation, lines 1970-2034).
The dynamic import is a collaborator: none models an import failure.
An absent houdini_load, a non-array houdini_load, or a validation
failure of the entries all return the nil result; on success the load
list and the exported names of the module are returned. -/
def find_page_info (module : Option RouteModule) : PageScriptInfo :=
  match module with
  | none => nilInfo
  | some m =>
    match m.houdini_load with
    | .absent => nilInfo
    | .notList => nilInfo
    | .list entries =>
      match build_load [] entries with
      | none => nilInfo
      | some load => ⟨some load, m.exports⟩

/-! ### The query merge of svelteKitProcessor (lines 1460-1474) -/

/-- The page_query ?? [] coercion of the source. -/
def page_query_list : Option LoadTarget → List LoadTarget
  | some q => [q]
  | none => []

/-- The references pushed for the houdini_load entries: the entry at
position i is referenced as houdini_load[i]. -/
def load_refs : Nat → List QueryInfo → List LoadTarget
  | _, [] => []
  | i, t :: rest =>
      ⟨.member (.ident "houdini_load") (.numLit i), t.name, t.vars⟩ :: load_refs (i + 1) rest

/-- The query merge of svelteKitProcessor: queries =
inline_queries.concat(page_query ?? []) followed by the indexed
houdini_load references. -/
def resolve_queries (inline_queries : List LoadTarget) (page_query : Option LoadTarget)
    (info : PageScriptInfo) : List LoadTarget :=
  (inline_queries ++ page_query_list page_query) ++ load_refs 0 (info.load.getD [])

/-- The merge order in the words of the spec (claim C2): first the
page-query file target, then the inline queries, then the houdini_load
references.  Stated for comparison with resolve_queries. -/
def resolve_queries_spec (inline_queries : List LoadTarget) (page_query : Option LoadTarget)
    (info : PageScriptInfo) : List LoadTarget :=
  (page_query_list page_query ++ inline_queries) ++ load_refs 0 (info.load.getD [])

/-- The route-script branch of svelteKitProcessor: resolve the query
list of the route from the three discovery results, then run add_load
on the script. -/
def process_route_script (filepath : String) (script : List JSStmt)
    (page_query : Option LoadTarget) (inline_queries : List LoadTarget)
    (info : PageScriptInfo) : AddLoadResult :=
  add_load filepath script (resolve_queries inline_queries page_query info) info

/-! ### Closed form of the generated load body -/

theorem insertAt_left {α : Type} (a b xs : List α) :
    insertAt (a ++ b) a.length xs = a ++ xs ++ b := by
  simp [insertAt, List.take_left, List.drop_left]

theorem insertAt_parts {α : Type} {l a b : List α} {i : Nat} (xs : List α)
    (h : l = a ++ b) (g : i = a.length) : insertAt l i xs = a ++ xs ++ b := by
  subst h; subst g; exact insertAt_left a b xs

theorem query_pair_stmts_length (exports : List String) (al : Bool) (qs : List LoadTarget) :
    (query_pair_stmts exports al qs).length = 2 * qs.length := by
  induction qs with
  | nil => simp [query_pair_stmts]
  | cons q qs ih => simp [query_pair_stmts, ih]; ring

theorem foldl_add_query (exports : List String) (al : Bool) (qs : List LoadTarget) :
    ∀ front : List JSStmt,
      qs.foldl (add_query_stmts exports al) (front ++ [return_stmt], front.length)
        = (front ++ query_pair_stmts exports al qs ++ [return_stmt],
           front.length + 2 * qs.length) := by
  induction qs with
  | nil => intro front; simp [query_pair_stmts]
  | cons q qs ih =>
    intro front
    rw [List.foldl_cons]
    have hstep : add_query_stmts exports al (front ++ [return_stmt], front.length) q
        = ((front ++ [input_assign_stmt exports q, fetch_push_stmt al q]) ++ [return_stmt],
           (front ++ [input_assign_stmt exports q, fetch_push_stmt al q]).length) := by
      simp [add_query_stmts, insertAt_left]
    rw [hstep, ih]
    simp [query_pair_stmts]
    omega

/-- The body of the generated load function, in closed form: context
declaration, optional before hook, inputs and promises declarations,
the two statements of each query in order, the awaited Promise.all,
optional after hook, final return. -/
theorem load_body_eq (queries : List LoadTarget) (info : PageScriptInfo) :
    load_body queries info
      = [ctx_decl]
        ++ hook_opt (info.exports.contains "beforeLoad") (load_hook_stmt "beforeLoad" queries)
        ++ [inputs_decl, promises_decl]
        ++ query_pair_stmts info.exports (info.exports.contains "afterLoad") queries
        ++ [result_decl]
        ++ hook_opt (info.exports.contains "afterLoad") (load_hook_stmt "afterLoad" queries)
        ++ [return_stmt] := by
  simp only [load_body]
  have hinit : initial_body = [ctx_decl, inputs_decl, promises_decl] ++ [return_stmt] := rfl
  have h3 : (3 : Nat) = ([ctx_decl, inputs_decl, promises_decl] : List JSStmt).length := rfl
  rw [hinit, h3, foldl_add_query]
  set al := info.exports.contains "afterLoad" with hal
  set bl := info.exports.contains "beforeLoad" with hbl
  set ps := query_pair_stmts info.exports al queries with hps
  set bh := load_hook_stmt "beforeLoad" queries with hbh
  set ah := load_hook_stmt "afterLoad" queries with hah
  have hb2 : insertAt (([ctx_decl, inputs_decl, promises_decl] ++ ps ++ [return_stmt] : List JSStmt))
        (([ctx_decl, inputs_decl, promises_decl] : List JSStmt).length + 2 * queries.length)
        [result_decl]
      = ([ctx_decl, inputs_decl, promises_decl] ++ ps ++ [result_decl]) ++ [return_stmt] := by
    refine insertAt_parts [result_decl] (by simp) ?_
    simp [hps, query_pair_stmts_length]
    omega
  simp only [hb2]
  have hnob : ¬ (false = true) := by decide
  have htb : (true = true) := rfl
  cases hblv : bl with
  | false =>
    cases halv : al with
    | false =>
      simp only [if_neg hnob, if_pos htb, if_true, if_false]
      simp [hook_opt]
    | true =>
      simp only [if_neg hnob, if_pos htb, if_true, if_false]
      refine (insertAt_parts
          (a := ([ctx_decl, inputs_decl, promises_decl] ++ ps ++ [result_decl]))
          (b := [return_stmt]) [ah] ?_ ?_).trans ?_
      · simp
      · simp only [List.length_append, List.length_cons, List.length_nil]
        omega
      · simp [hook_opt]
  | true =>
    cases halv : al with
    | false =>
      simp only [if_neg hnob, if_pos htb, if_true, if_false]
      refine (insertAt_parts (a := ([ctx_decl] : List JSStmt))
          (b := ([inputs_decl, promises_decl] ++ ps ++ [result_decl] ++ [return_stmt])) [bh]
          ?_ ?_).trans ?_
      · simp
      · rfl
      · simp [hook_opt]
    | true =>
      simp only [if_neg hnob, if_pos htb, if_true, if_false]
      refine (insertAt_parts
          (a := ([ctx_decl, bh, inputs_decl, promises_decl] ++ ps ++ [result_decl]))
          (b := [return_stmt]) [ah] ?_ ?_).trans ?_
      · simp [insertAt]
      · simp only [insertAt]
        simp only [List.length_append, List.length_take, List.length_cons, List.length_nil,
          List.length_drop]
        omega
      · simp [hook_opt]

/-! ### Facts about the scanners on generated statements -/

theorem stmt_blocking_flag_fetch (al : Bool) (q : LoadTarget) :
    stmt_blocking_flag (fetch_push_stmt al q) = some (.boolLit al) := rfl

theorem stmt_blocking_flag_assign (e : List String) (q : LoadTarget) :
    stmt_blocking_flag (input_assign_stmt e q) = none := rfl

theorem stmt_blocking_flag_hook (n : String) (qs : List LoadTarget) :
    stmt_blocking_flag (load_hook_stmt n qs) = none := rfl

theorem stmt_blocking_flag_ctx : stmt_blocking_flag ctx_decl = none := rfl

theorem stmt_blocking_flag_inputs : stmt_blocking_flag inputs_decl = none := rfl

theorem stmt_blocking_flag_promises : stmt_blocking_flag promises_decl = none := rfl

theorem stmt_blocking_flag_result : stmt_blocking_flag result_decl = none := rfl

theorem stmt_blocking_flag_return : stmt_blocking_flag return_stmt = none := rfl

theorem is_after_hook_stmt_fetch (al : Bool) (q : LoadTarget) :
    is_after_hook_stmt (fetch_push_stmt al q) = false := rfl

theorem is_after_hook_stmt_assign (e : List String) (q : LoadTarget) :
    is_after_hook_stmt (input_assign_stmt e q) = false := rfl

theorem is_after_hook_stmt_after (qs : List LoadTarget) :
    is_after_hook_stmt (load_hook_stmt "afterLoad" qs) = true := rfl

theorem is_after_hook_stmt_before (qs : List LoadTarget) :
    is_after_hook_stmt (load_hook_stmt "beforeLoad" qs) = false := rfl

theorem is_after_hook_stmt_ctx : is_after_hook_stmt ctx_decl = false := rfl

theorem is_after_hook_stmt_inputs : is_after_hook_stmt inputs_decl = false := rfl

theorem is_after_hook_stmt_promises : is_after_hook_stmt promises_decl = false := rfl

theorem is_after_hook_stmt_result : is_after_hook_stmt result_decl = false := rfl

theorem is_after_hook_stmt_return : is_after_hook_stmt return_stmt = false := rfl

theorem flags_query_pairs (e : List String) (al : Bool) (qs : List LoadTarget) :
    (query_pair_stmts e al qs).filterMap stmt_blocking_flag
      = qs.map (fun _ => JSExpr.boolLit al) := by
  induction qs with
  | nil => simp [query_pair_stmts]
  | cons q qs ih =>
    simp [query_pair_stmts, List.filterMap_cons, stmt_blocking_flag_fetch,
      stmt_blocking_flag_assign, ih]

theorem after_count_query_pairs (e : List String) (al : Bool) (qs : List LoadTarget) :
    (query_pair_stmts e al qs).countP is_after_hook_stmt = 0 := by
  induction qs with
  | nil => simp [query_pair_stmts]
  | cons q qs ih =>
    simp [query_pair_stmts, List.countP_cons, ih, is_after_hook_stmt_fetch,
      is_after_hook_stmt_assign]

/-- Every fetch push of the generated body carries the same blocking
flag: the presence of afterLoad among the exports, one flag per query
in order. -/
theorem fetch_blocking_flags_load_body (queries : List LoadTarget) (info : PageScriptInfo) :
    fetch_blocking_flags (load_body queries info)
      = queries.map (fun _ => JSExpr.boolLit (info.exports.contains "afterLoad")) := by
  rw [load_body_eq]
  cases hb : info.exports.contains "beforeLoad" <;>
    cases ha : info.exports.contains "afterLoad" <;>
      simp [fetch_blocking_flags, hook_opt, List.filterMap_append, flags_query_pairs,
        stmt_blocking_flag_hook, stmt_blocking_flag_ctx, stmt_blocking_flag_inputs,
        stmt_blocking_flag_promises, stmt_blocking_flag_result, stmt_blocking_flag_return]

/-- When afterLoad is among the exports, the generated body contains
exactly one after-hook invocation. -/
theorem after_hook_count_load_body (queries : List LoadTarget) (info : PageScriptInfo)
    (ha : info.exports.contains "afterLoad" = true) :
    (load_body queries info).countP is_after_hook_stmt = 1 := by
  rw [load_body_eq, ha]
  cases hb : info.exports.contains "beforeLoad" <;>
    simp [hook_opt, List.countP_append, List.countP_cons, after_count_query_pairs,
      is_after_hook_stmt_after, is_after_hook_stmt_before, is_after_hook_stmt_ctx,
      is_after_hook_stmt_inputs, is_after_hook_stmt_promises, is_after_hook_stmt_result,
      is_after_hook_stmt_return]

/-! ### Claim C1 -/

/-- Claim C1: for every route script into which a load procedure is
synthesized (load not among the exports, all required variable
functions present), every generated fetch call receives the same
blocking flag, and that flag is the boolean literal of the presence of
afterLoad among the exports of the route script, one flag per query
target in order, regardless of the properties of the targets. -/
theorem C1_blocking_uniform (filepath : String) (script : List JSStmt)
    (queries : List LoadTarget) (info : PageScriptInfo)
    (h : info.exports.contains "load" = false)
    (g : queries.filter (missing_variable_fn info.exports) = []) :
    (add_load filepath script queries info).script
        = ensure_imports script ["RequestContext"] "$houdini/runtime/lib/network"
            ++ [.exportFunction "load" true ["context"] (load_body queries info)]
      ∧ fetch_blocking_flags (load_body queries info)
        = queries.map (fun _ => JSExpr.boolLit (info.exports.contains "afterLoad")) := by
  constructor
  · have hmem : "load" ∉ info.exports := by simpa using h
    have gall : ∀ a ∈ queries, missing_variable_fn info.exports a = false := by
      simpa using g
    simp [add_load, hmem]
    rw [if_pos gall]
  · exact fetch_blocking_flags_load_body queries info

theorem C1_blocking_uniform_witness :
    (add_load "src/routes/+page.js" []
        [(⟨.ident "GQL_A", "A", false⟩ : LoadTarget), (⟨.ident "GQL_B", "B", true⟩ : LoadTarget)]
        ⟨some [], ["afterLoad", "BVariables"]⟩).script
        = ensure_imports [] ["RequestContext"] "$houdini/runtime/lib/network"
            ++ [.exportFunction "load" true ["context"]
                (load_body
                  [(⟨.ident "GQL_A", "A", false⟩ : LoadTarget),
                   (⟨.ident "GQL_B", "B", true⟩ : LoadTarget)]
                  ⟨some [], ["afterLoad", "BVariables"]⟩)]
      ∧ fetch_blocking_flags
          (load_body
            [(⟨.ident "GQL_A", "A", false⟩ : LoadTarget),
             (⟨.ident "GQL_B", "B", true⟩ : LoadTarget)]
            ⟨some [], ["afterLoad", "BVariables"]⟩)
        = [(⟨.ident "GQL_A", "A", false⟩ : LoadTarget),
           (⟨.ident "GQL_B", "B", true⟩ : LoadTarget)].map
            (fun _ => JSExpr.boolLit
              ((⟨some [], ["afterLoad", "BVariables"]⟩ : PageScriptInfo).exports.contains
                "afterLoad")) :=
  C1_blocking_uniform "src/routes/+page.js" []
    [(⟨.ident "GQL_A", "A", false⟩ : LoadTarget), (⟨.ident "GQL_B", "B", true⟩ : LoadTarget)]
    ⟨some [], ["afterLoad", "BVariables"]⟩ (by rfl) (by rfl)

/-! ### Claim C4 -/

/-- Claim C4: for every route script whose exports already include a
load function, add_load performs no mutation at all: the script is
returned unchanged, no load procedure is added, and no diagnostic is
produced. -/
theorem C4_existing_load_untouched (filepath : String) (script : List JSStmt)
    (queries : List LoadTarget) (info : PageScriptInfo)
    (h : info.exports.contains "load" = true) :
    add_load filepath script queries info = ⟨script, []⟩ := by
  have hmem : "load" ∈ info.exports := by simpa using h
  simp [add_load, hmem]

theorem C4_existing_load_untouched_witness :
    add_load "src/routes/+page.js" [.other "user statement"]
        [⟨.ident "GQL_TestQuery1", "TestQuery1", true⟩] ⟨none, ["load"]⟩
      = ⟨[.other "user statement"], []⟩ :=
  C4_existing_load_untouched "src/routes/+page.js" [.other "user statement"]
    [⟨.ident "GQL_TestQuery1", "TestQuery1", true⟩] ⟨none, ["load"]⟩ (by rfl)

/-! ### Claim C3 -/

/-- Claim C3 counterexample: the claim states that exactly one
diagnostic is produced when some query target requires variables
without an exported variable function, but with two such targets the
validation loop of add_load logs one diagnostic per offending target:
two diagnostics, not one. -/
theorem C3_counterexample :
    (add_load "src/routes/+page.js" []
        [⟨.ident "GQL_A", "A", true⟩, ⟨.ident "GQL_B", "B", true⟩]
        ⟨some [], []⟩).diagnostics.length = 2 := rfl

/-- Claim C3 (amended): for every route whose exports lack load, if
some query target requires variables without a matching exported
variable function, synthesis aborts for that route: the script is
returned completely unmutated, no load function is added, and one
diagnostic naming the derived function is produced for each offending
target, in target order. -/
theorem C3_missing_variable_fn_aborts (filepath : String) (script : List JSStmt)
    (queries : List LoadTarget) (info : PageScriptInfo)
    (h : info.exports.contains "load" = false)
    (g : queries.filter (missing_variable_fn info.exports) ≠ []) :
    add_load filepath script queries info
      = ⟨script, (queries.filter (missing_variable_fn info.exports)).map
          (fun q => missing_fn_message filepath (query_variable_fn q.name))⟩ := by
  have hmem : "load" ∉ info.exports := by simpa using h
  cases hm : queries.filter (missing_variable_fn info.exports) with
  | nil => exact absurd hm g
  | cons q qs =>
    have hnotall : ¬ (∀ a ∈ queries, missing_variable_fn info.exports a = false) := by
      intro hall
      have : queries.filter (missing_variable_fn info.exports) = [] := by
        simpa using hall
      rw [hm] at this
      exact List.noConfusion this
    simp [add_load, hmem, hnotall, hm]

theorem C3_missing_variable_fn_aborts_witness :
    add_load "src/routes/+page.js" [.other "user statement"]
        [⟨.ident "GQL_A", "A", true⟩] ⟨some [], []⟩
      = ⟨[.other "user statement"],
         (([⟨.ident "GQL_A", "A", true⟩] : List LoadTarget).filter
            (missing_variable_fn ([] : List String))).map
           (fun q => missing_fn_message "src/routes/+page.js" (query_variable_fn q.name))⟩ :=
  C3_missing_variable_fn_aborts "src/routes/+page.js" [.other "user statement"]
    [⟨.ident "GQL_A", "A", true⟩] ⟨some [], []⟩ (by rfl)
    (fun hcontra => List.noConfusion hcontra)

/-! ### Claim C2 -/

/-- Claim C2 counterexample: with one inline query A and a page query
B, the source merges the inline query first
(inline_queries.concat(page_query ?? [])), producing [A, B]; the order
stated by the claim (page query first, then inline queries) yields
[B, A], and the two disagree on the name of the first target. -/
theorem C2_counterexample :
    (resolve_queries [⟨.ident "GQL_A", "A", false⟩] (some ⟨.ident "GQL_B", "B", false⟩)
        ⟨some [], []⟩).map LoadTarget.name = ["A", "B"]
    ∧ (resolve_queries_spec [⟨.ident "GQL_A", "A", false⟩] (some ⟨.ident "GQL_B", "B", false⟩)
        ⟨some [], []⟩).map LoadTarget.name = ["B", "A"]
    ∧ (["A", "B"] : List String) ≠ ["B", "A"] := by
  refine ⟨rfl, rfl, ?_⟩
  decide

/-- Claim C2 (amended): the resolved ordered list of query targets is
the stable concatenation, without de-duplication by name, of first the
inline queries discovered in the component document, then the
page-query file target (if present), then the entries of the exported
houdini_load list resolved to list-indexed references houdini_load[i];
every source is additive, so the length is the sum of the three
lengths. -/
theorem C2_merge_order (inline_queries : List LoadTarget) (page_query : Option LoadTarget)
    (info : PageScriptInfo) :
    resolve_queries inline_queries page_query info
        = inline_queries ++ page_query_list page_query ++ load_refs 0 (info.load.getD [])
      ∧ (resolve_queries inline_queries page_query info).length
        = inline_queries.length + (page_query_list page_query).length
            + (info.load.getD []).length := by
  constructor
  · rfl
  · have hlen : ∀ (i : Nat) (l : List QueryInfo), (load_refs i l).length = l.length := by
      intro i l
      induction l generalizing i with
      | nil => rfl
      | cons t rest ih => simp [load_refs, ih]
    simp [resolve_queries, hlen]
    omega

/-! ### Claim C5 -/

/-- Claim C5: for every route with an afterLoad export whose load
synthesis runs (load not exported, variable functions present), the
generated body invokes the after hook exactly once, positioned directly
after the awaited Promise.all and directly before the final return, and
the invocation passes the accumulated input map and a data map keyed by
operation name in which the target at position i maps to result[i]. -/
theorem C5_after_hook_shape (filepath : String) (script : List JSStmt)
    (queries : List LoadTarget) (info : PageScriptInfo)
    (h : info.exports.contains "load" = false)
    (g : queries.filter (missing_variable_fn info.exports) = [])
    (a : info.exports.contains "afterLoad" = true) :
    (add_load filepath script queries info).script
        = ensure_imports script ["RequestContext"] "$houdini/runtime/lib/network"
            ++ [.exportFunction "load" true ["context"] (load_body queries info)]
      ∧ load_body queries info
        = ([ctx_decl]
            ++ hook_opt (info.exports.contains "beforeLoad") (load_hook_stmt "beforeLoad" queries)
            ++ [inputs_decl, promises_decl]
            ++ query_pair_stmts info.exports true queries)
          ++ [result_decl, load_hook_stmt "afterLoad" queries, return_stmt]
      ∧ (load_body queries info).countP is_after_hook_stmt = 1
      ∧ load_hook_stmt "afterLoad" queries
        = .exprStmt (.awaitE (.call
            (.member (.ident "houdini_context") (.ident "invokeLoadHook"))
            [ .objectE
                [ .prop (.strLit "variant") (.strLit "after")
                , .prop (.strLit "hookFn") (.ident "afterLoad")
                , .prop (.strLit "input") (.ident "inputs")
                , .prop (.strLit "data") (.objectE (data_props 0 queries)) ] ])) := by
  refine ⟨?_, ?_, after_hook_count_load_body queries info a, rfl⟩
  · have hmem : "load" ∉ info.exports := by simpa using h
    have gall : ∀ x ∈ queries, missing_variable_fn info.exports x = false := by
      simpa using g
    simp [add_load, hmem]
    rw [if_pos gall]
  · rw [load_body_eq, a]
    simp [hook_opt]

theorem C5_after_hook_shape_witness :
    (add_load "src/routes/+page.js" []
        [(⟨.ident "GQL_TestQuery1", "TestQuery1", false⟩ : LoadTarget),
         (⟨.ident "GQL_TestQuery2", "TestQuery2", false⟩ : LoadTarget)]
        ⟨some [], ["afterLoad"]⟩).script
        = ensure_imports [] ["RequestContext"] "$houdini/runtime/lib/network"
            ++ [.exportFunction "load" true ["context"]
                (load_body
                  [(⟨.ident "GQL_TestQuery1", "TestQuery1", false⟩ : LoadTarget),
                   (⟨.ident "GQL_TestQuery2", "TestQuery2", false⟩ : LoadTarget)]
                  ⟨some [], ["afterLoad"]⟩)]
      ∧ load_body
          [(⟨.ident "GQL_TestQuery1", "TestQuery1", false⟩ : LoadTarget),
           (⟨.ident "GQL_TestQuery2", "TestQuery2", false⟩ : LoadTarget)]
          ⟨some [], ["afterLoad"]⟩
        = ([ctx_decl]
            ++ hook_opt ((⟨some [], ["afterLoad"]⟩ : PageScriptInfo).exports.contains "beforeLoad")
                (load_hook_stmt "beforeLoad"
                  [(⟨.ident "GQL_TestQuery1", "TestQuery1", false⟩ : LoadTarget),
                   (⟨.ident "GQL_TestQuery2", "TestQuery2", false⟩ : LoadTarget)])
            ++ [inputs_decl, promises_decl]
            ++ query_pair_stmts ["afterLoad"] true
                [(⟨.ident "GQL_TestQuery1", "TestQuery1", false⟩ : LoadTarget),
                 (⟨.ident "GQL_TestQuery2", "TestQuery2", false⟩ : LoadTarget)])
          ++ [result_decl,
              load_hook_stmt "afterLoad"
                [(⟨.ident "GQL_TestQuery1", "TestQuery1", false⟩ : LoadTarget),
                 (⟨.ident "GQL_TestQuery2", "TestQuery2", false⟩ : LoadTarget)],
              return_stmt]
      ∧ (load_body
          [(⟨.ident "GQL_TestQuery1", "TestQuery1", false⟩ : LoadTarget),
           (⟨.ident "GQL_TestQuery2", "TestQuery2", false⟩ : LoadTarget)]
          ⟨some [], ["afterLoad"]⟩).countP is_after_hook_stmt = 1
      ∧ load_hook_stmt "afterLoad"
          [(⟨.ident "GQL_TestQuery1", "TestQuery1", false⟩ : LoadTarget),
           (⟨.ident "GQL_TestQuery2", "TestQuery2", false⟩ : LoadTarget)]
        = .exprStmt (.awaitE (.call
            (.member (.ident "houdini_context") (.ident "invokeLoadHook"))
            [ .objectE
                [ .prop (.strLit "variant") (.strLit "after")
                , .prop (.strLit "hookFn") (.ident "afterLoad")
                , .prop (.strLit "input") (.ident "inputs")
                , .prop (.strLit "data")
                    (.objectE (data_props 0
                      [(⟨.ident "GQL_TestQuery1", "TestQuery1", false⟩ : LoadTarget),
                       (⟨.ident "GQL_TestQuery2", "TestQuery2", false⟩ : LoadTarget)])) ] ])) :=
  C5_after_hook_shape "src/routes/+page.js" []
    [(⟨.ident "GQL_TestQuery1", "TestQuery1", false⟩ : LoadTarget),
     (⟨.ident "GQL_TestQuery2", "TestQuery2", false⟩ : LoadTarget)]
    ⟨some [], ["afterLoad"]⟩ (by rfl) (by rfl) (by rfl)

/-! ### Claim C6 -/

/-- Claim C6 counterexample: the claim asserts that for a route with no
hooks and a single query Foo not requiring variables the generated body
assigns inputs[Foo] = \x7b\x7d; but the source selects the assigned
expression by export membership of the derived function name, not by
the variables flag, so with FooVariables among the exports the body
assigns the computeInput call instead of the empty object. -/
theorem C6_counterexample :
    load_body [(⟨.ident "GQL_Foo", "Foo", false⟩ : LoadTarget)] ⟨some [], ["FooVariables"]⟩
      = [ctx_decl, inputs_decl, promises_decl,
         .exprStmt (.assign (.member (.ident "inputs") (.strLit "Foo"))
           (compute_input_expr (⟨.ident "GQL_Foo", "Foo", false⟩ : LoadTarget))),
         fetch_push_stmt false (⟨.ident "GQL_Foo", "Foo", false⟩ : LoadTarget),
         result_decl, return_stmt]
    ∧ compute_input_expr (⟨.ident "GQL_Foo", "Foo", false⟩ : LoadTarget) ≠ .objectE [] := by
  refine ⟨rfl, ?_⟩
  intro hcontra
  exact JSExpr.noConfusion hcontra

/-- Claim C6 (amended): for a route with no beforeLoad or afterLoad
export, no exported load, exactly one query target Foo not requiring
variables, and no exported FooVariables function, the synthesized load
procedure constructs the request-context wrapper, assigns
inputs[Foo] = \x7b\x7d, pushes exactly one fetch call with variables
inputs[Foo], the raw context as event and blocking false, awaits all
promises jointly, and returns the spread of the wrapper returnValue
together with the inputs map. -/
theorem C6_single_query_shape (filepath : String) (script : List JSStmt) (sid : JSExpr)
    (info : PageScriptInfo)
    (h : info.exports.contains "load" = false)
    (hb : info.exports.contains "beforeLoad" = false)
    (ha : info.exports.contains "afterLoad" = false)
    (hv : info.exports.contains "FooVariables" = false) :
    (add_load filepath script [⟨sid, "Foo", false⟩] info).script
      = ensure_imports script ["RequestContext"] "$houdini/runtime/lib/network"
          ++ [.exportFunction "load" true ["context"]
              [ ctx_decl, inputs_decl, promises_decl,
                .exprStmt (.assign (.member (.ident "inputs") (.strLit "Foo")) (.objectE [])),
                .exprStmt (.call (.member (.ident "promises") (.ident "push"))
                  [ .call (.member sid (.ident "fetch"))
                      [ .objectE
                          [ .prop (.strLit "variables")
                              (.member (.ident "inputs") (.strLit "Foo"))
                          , .prop (.strLit "event") (.ident "context")
                          , .prop (.strLit "blocking") (.boolLit false) ] ] ]),
                result_decl, return_stmt ]]
      ∧ (add_load filepath script [⟨sid, "Foo", false⟩] info).diagnostics = [] := by
  have hmem : "load" ∉ info.exports := by simpa using h
  have hfv : query_variable_fn "Foo" = "FooVariables" := rfl
  have g1 : missing_variable_fn info.exports (⟨sid, "Foo", false⟩ : LoadTarget) = false := by
    simp [missing_variable_fn]
  constructor
  · have hvm : "FooVariables" ∉ info.exports := by simpa using hv
    simp [add_load, hmem]
    rw [if_pos g1]
    rw [load_body_eq, hb, ha]
    simp [hook_opt, query_pair_stmts, input_assign_stmt, fetch_push_stmt, hfv, hvm]
  · simp [add_load, hmem]
    rw [if_pos g1]

theorem C6_single_query_shape_witness :
    (add_load "src/routes/+page.js" [] [⟨.ident "GQL_Foo", "Foo", false⟩]
        ⟨some [], []⟩).script
      = ensure_imports [] ["RequestContext"] "$houdini/runtime/lib/network"
          ++ [.exportFunction "load" true ["context"]
              [ ctx_decl, inputs_decl, promises_decl,
                .exprStmt (.assign (.member (.ident "inputs") (.strLit "Foo")) (.objectE [])),
                .exprStmt (.call (.member (.ident "promises") (.ident "push"))
                  [ .call (.member (.ident "GQL_Foo") (.ident "fetch"))
                      [ .objectE
                          [ .prop (.strLit "variables")
                              (.member (.ident "inputs") (.strLit "Foo"))
                          , .prop (.strLit "event") (.ident "context")
                          , .prop (.strLit "blocking") (.boolLit false) ] ] ]),
                result_decl, return_stmt ]]
      ∧ (add_load "src/routes/+page.js" [] [⟨.ident "GQL_Foo", "Foo", false⟩]
          ⟨some [], []⟩).diagnostics = [] :=
  C6_single_query_shape "src/routes/+page.js" [] (.ident "GQL_Foo") ⟨some [], []⟩
    (by rfl) (by rfl) (by rfl) (by rfl)

/-! ### Claim C10 -/

/-- Claim C10: for a route script whose exports do not include load, a
load procedure is synthesized and exported even with zero query targets
(no page-query file, no inline queries, empty or absent houdini_load):
the generated body constructs the context wrapper, declares the empty
inputs map and the empty promise list, awaits Promise.all of the empty
list, and returns the spread of the wrapper returnValue together with
the inputs map (with the hook statements exactly when the hooks are
exported). -/
theorem C10_zero_targets (filepath : String) (script : List JSStmt) (info : PageScriptInfo)
    (h : info.exports.contains "load" = false)
    (g : info.load.getD [] = []) :
    process_route_script filepath script none [] info
      = ⟨ensure_imports script ["RequestContext"] "$houdini/runtime/lib/network"
          ++ [.exportFunction "load" true ["context"]
              ([ctx_decl]
                ++ hook_opt (info.exports.contains "beforeLoad")
                    (load_hook_stmt "beforeLoad" [])
                ++ [inputs_decl, promises_decl, result_decl]
                ++ hook_opt (info.exports.contains "afterLoad")
                    (load_hook_stmt "afterLoad" [])
                ++ [return_stmt])]
        , []⟩ := by
  have hq : resolve_queries [] none info = [] := by
    simp [resolve_queries, page_query_list, g, load_refs]
  unfold process_route_script
  rw [hq]
  have hmem : "load" ∉ info.exports := by simpa using h
  simp [add_load, hmem]
  rw [load_body_eq]
  simp [query_pair_stmts]

theorem C10_zero_targets_witness :
    process_route_script "src/routes/+page.js" [] none [] ⟨none, []⟩
      = ⟨ensure_imports [] ["RequestContext"] "$houdini/runtime/lib/network"
          ++ [.exportFunction "load" true ["context"]
              ([ctx_decl]
                ++ hook_opt ((⟨none, []⟩ : PageScriptInfo).exports.contains "beforeLoad")
                    (load_hook_stmt "beforeLoad" [])
                ++ [inputs_decl, promises_decl, result_decl]
                ++ hook_opt ((⟨none, []⟩ : PageScriptInfo).exports.contains "afterLoad")
                    (load_hook_stmt "afterLoad" [])
                ++ [return_stmt])]
        , []⟩ :=
  C10_zero_targets "src/routes/+page.js" [] ⟨none, []⟩ (by rfl) (by rfl)

/-! ### Claim C9 -/

/-- Claim C9: during inline-query extraction, an embedded literal
contributes a query target if and only if the first definition of its
parsed document is an operation of kind query and the syntactic parent
of the literal is a call expression; literals failing either condition
(mutations, subscriptions, fragments, bare declarations) contribute
nothing.  Stated as: the extraction equals the filter of exactly that
condition, in order. -/
theorem C9_inline_query_iff (tags : List GraphqlTagSite) :
    find_inline_queries tags
      = tags.filterMap (fun t =>
          if is_first_query t && t.parentType == "CallExpression"
          then inline_target t else none) := by
  induction tags with
  | nil => rfl
  | cons t rest ih =>
    rw [List.filterMap_cons]
    rcases hdefs : t.parsedDocument.definitions with _ | ⟨d, ds⟩
    · have hw : tag_where t.parsedDocument = false := by
        simp [tag_where, hdefs]
      have hf : is_first_query t = false := by
        simp [is_first_query, hdefs]
      simp [find_inline_queries, hw, hf, ih]
    · cases d with
      | fragmentDefinition n =>
        have hf : is_first_query t = false := by
          simp [is_first_query, hdefs]
        cases hw : tag_where t.parsedDocument with
        | false => simp [find_inline_queries, hw, hf, ih]
        | true => simp [find_inline_queries, hw, hdefs, hf, ih]
      | operationDefinition o =>
        cases hop : (o.operation == "query") with
        | false =>
          have hf : is_first_query t = false := by
            simp [is_first_query, hdefs, hop]
          cases hw : tag_where t.parsedDocument with
          | false => simp [find_inline_queries, hw, hf, ih]
          | true => simp [find_inline_queries, hw, hdefs, hop, hf, ih]
        | true =>
          have hw : tag_where t.parsedDocument = true := by
            simp [tag_where, hdefs]
            exact Or.inl (by simpa using hop)
          have hf : is_first_query t = true := by
            simp [is_first_query, hdefs, hop]
          cases hp : (t.parentType == "CallExpression") with
          | false => simp [find_inline_queries, hw, hdefs, hop, hp, hf, ih]
          | true => simp [find_inline_queries, hw, hdefs, hop, hp, hf, inline_target, ih]

/-! ### Claim C7 -/

/-- If the validation loop over the houdini_load entries succeeds, then
every entry carries the compiled-query kind, the names are pairwise
distinct, and no name was already seen. -/
theorem build_load_ok (entries : List StoreEntry) :
    ∀ (seen : List String) (l : List QueryInfo), build_load seen entries = some l →
      (entries.map StoreEntry.name).Nodup
      ∧ (∀ e ∈ entries, e.kind = some CompiledQueryKind)
      ∧ (∀ e ∈ entries, e.name ∉ seen) := by
  induction entries with
  | nil =>
    intro seen l _
    refine ⟨by simp, by simp, by simp⟩
  | cons s rest ih =>
    intro seen l h
    cases hc : seen.contains s.name with
    | true =>
      have hc2 : s.name ∈ seen := by simpa using hc
      simp [build_load, hc2] at h
    | false =>
      have hc2 : s.name ∉ seen := by simpa using hc
      cases hk : s.kind with
      | none => simp [build_load, hc2, hk] at h
      | some k =>
        by_cases hkc : k = CompiledQueryKind
        · subst hkc
          cases hrest : build_load (seen ++ [s.name]) rest with
          | none => simp [build_load, hc2, hk, hrest] at h
          | some l2 =>
            obtain ⟨hnd, hkinds, hseen⟩ := ih (seen ++ [s.name]) l2 hrest
            have hname : ∀ e ∈ rest, e.name ≠ s.name := by
              intro e he
              have := hseen e he
              simp at this
              exact fun hcontra => this.2 hcontra
            refine ⟨?_, ?_, ?_⟩
            · simp only [List.map_cons, List.nodup_cons]
              refine ⟨?_, hnd⟩
              intro hcontra
              obtain ⟨e, he, hne⟩ := List.mem_map.mp hcontra
              exact hname e he hne
            · intro e he
              rcases List.mem_cons.mp he with hes | her
              · subst hes; exact hk
              · exact hkinds e her
            · intro e he
              rcases List.mem_cons.mp he with hes | her
              · subst hes
                exact hc2
              · intro hcontra
                have := hseen e her
                simp at this
                exact this.1 hcontra
        · have hkc2 : (k != CompiledQueryKind) = true := by
            simpa using hkc
          simp [build_load, hc2, hk, hkc2] at h

/-- Claim C7 counterexample: with a duplicated name in houdini_load the
metadata resolution does return the empty result, but a load procedure
is still synthesized for the route (from zero targets), contradicting
the claimed absence of a synthesized load procedure. -/
theorem C7_counterexample :
    find_page_info (some ⟨[], .list
        [⟨"A", some CompiledQueryKind, false⟩, ⟨"A", some CompiledQueryKind, false⟩]⟩)
      = nilInfo
    ∧ (process_route_script "src/routes/+page.js" [] none []
        (find_page_info (some ⟨[], .list
          [⟨"A", some CompiledQueryKind, false⟩,
           ⟨"A", some CompiledQueryKind, false⟩]⟩))).script
      = [.importDecl ["RequestContext"] "$houdini/runtime/lib/network",
         .exportFunction "load" true ["context"]
           [ctx_decl, inputs_decl, promises_decl, result_decl, return_stmt]] :=
  ⟨rfl, rfl⟩

/-- Claim C7 (amended): if the exported houdini_load list repeats an
operation name or contains an entry whose kind discriminator is not the
compiled-query kind, metadata resolution fails for the whole route and
returns the empty result (empty load list, empty exports) without
crashing; the explicit list then contributes no query target, though a
load procedure may still be synthesized from the remaining sources. -/
theorem C7_explicit_list_validation (ex : List String) (entries : List StoreEntry)
    (hbad : ¬ (entries.map StoreEntry.name).Nodup
            ∨ ∃ e ∈ entries, e.kind ≠ some CompiledQueryKind) :
    find_page_info (some ⟨ex, .list entries⟩) = nilInfo := by
  cases hb : build_load [] entries with
  | none => simp [find_page_info, hb]
  | some l =>
    obtain ⟨hnd, hkinds, _⟩ := build_load_ok entries [] l hb
    cases hbad with
    | inl hn => exact absurd hnd hn
    | inr he =>
      obtain ⟨e, hmem, hne⟩ := he
      exact absurd (hkinds e hmem) hne

theorem C7_explicit_list_validation_witness :
    find_page_info (some ⟨["houdini_load"], .list
        [⟨"A", some CompiledQueryKind, false⟩, ⟨"A", some CompiledQueryKind, true⟩]⟩)
      = nilInfo :=
  C7_explicit_list_validation ["houdini_load"]
    [⟨"A", some CompiledQueryKind, false⟩, ⟨"A", some CompiledQueryKind, true⟩]
    (Or.inl (by decide))

/-! ### Claim C8 -/

/-- Claim C8 counterexample: a page-query file whose contents fail
query-language parsing is not skipped with a diagnostic: the source
calls graphql.parse outside any try block, so the parse error
propagates out of find_page_query instead of processing continuing. -/
theorem C8_counterexample :
    find_page_query (some "query TestQuery \x7b")
        (fun _ => Except.error "Syntax Error: Expected Name, found <EOF>")
      = .error "Syntax Error: Expected Name, found <EOF>"
    ∧ ¬ ∃ target diags, find_page_query (some "query TestQuery \x7b")
        (fun _ => Except.error "Syntax Error: Expected Name, found <EOF>")
          = .ok (target, diags) := by
  refine ⟨rfl, ?_⟩
  rintro ⟨target, diags, hcontra⟩
  exact Except.noConfusion hcontra

/-- Claim C8 (amended): a malformed page-query file is fatal: when the
parser fails on the contents, the parse error propagates out of
find_page_query unchanged.  Only a page-query file that parses but
contains no query operation is non-fatal: it is skipped with exactly
one diagnostic and processing continues with no discovered target.
Each branch is an implication under its own premise, so both are
exercised by suitable parsers. -/
theorem C8_page_query_error_handling (text : String)
    (parse : String → Except String GraphqlDocument) :
    (∀ e, parse text = .error e → find_page_query (some text) parse = .error e)
    ∧ (∀ doc, parse text = .ok doc → find_query_definition doc.definitions = none →
        find_page_query (some text) parse
          = .ok (none, ["page.gql must contain a query"])) := by
  constructor
  · intro e h
    simp [find_page_query, h]
  · intro doc h hq
    simp [find_page_query, h, hq]

theorem C8_page_query_error_handling_witness :
    find_page_query (some "bad page query")
        (fun s => if s == "bad page query"
                  then Except.error "Syntax Error: Expected Name, found <EOF>"
                  else Except.ok ⟨[.fragmentDefinition "UserAvatar"]⟩)
      = .error "Syntax Error: Expected Name, found <EOF>"
    ∧ find_page_query (some "fragment UserAvatar on User")
        (fun s => if s == "bad page query"
                  then Except.error "Syntax Error: Expected Name, found <EOF>"
                  else Except.ok ⟨[.fragmentDefinition "UserAvatar"]⟩)
      = .ok (none, ["page.gql must contain a query"]) :=
  ⟨(C8_page_query_error_handling "bad page query"
      (fun s => if s == "bad page query"
                then Except.error "Syntax Error: Expected Name, found <EOF>"
                else Except.ok ⟨[.fragmentDefinition "UserAvatar"]⟩)).1
      "Syntax Error: Expected Name, found <EOF>" rfl,
   (C8_page_query_error_handling "fragment UserAvatar on User"
      (fun s => if s == "bad page query"
                then Except.error "Syntax Error: Expected Name, found <EOF>"
                else Except.ok ⟨[.fragmentDefinition "UserAvatar"]⟩)).2
      ⟨[.fragmentDefinition "UserAvatar"]⟩ rfl rfl⟩

end Houdini
